import Mathlib

/-!
Verification development for the TowerTech Society Management System.

The repository ships the presentation layer (`src/App.tsx`) and a database
seed script (`prisma/seed.ts`).  The Society Operations Engine that the
specification describes (the handlers behind `/api/admin/generate-bills`,
`/api/resident/book`, `/api/security/visitor-exit`, ...) is not part of the
repository; only its callers in the UI are.  Those operations are therefore
modelled from the specification below, while everything that does live in
the repository (the fixed time-slot enumeration offered by the booking form,
the flat-number list built by the registration form, the flat labels created
by the seed script) is translated directly from the source.
-/

namespace TowerTech

/-- Bill status, from the `Bill` interface in `src/App.tsx` (`'Paid' | 'Unpaid'`). -/
inductive BillStatus where
  | Paid
  | Unpaid
deriving DecidableEq, Repr

/-- A maintenance bill, from the `Bill` interface in `src/App.tsx`
(id, flat_id, amount, month, due_date, status) together with the separate
`year` column used by the seed script; dates are modelled as naturals. -/
structure Bill where
  id : Nat
  flat_id : String
  amount : Nat
  month : String
  year : Nat
  due_date : Nat
  status : BillStatus
deriving DecidableEq, Repr

/-- A payment record, following the seed script's `payment.create`
(billId, paymentMode, transactionId) plus a timestamp. -/
structure Payment where
  id : Nat
  bill_id : Nat
  mode : String
  transaction_ref : String
  timestamp : Nat
deriving DecidableEq, Repr

/-- An amenity booking (amenity, date, time_slot, flat_id), the shape rendered
by `ResidentBookingsView` in `src/App.tsx`. -/
structure Booking where
  id : Nat
  amenity : String
  date : Nat
  time_slot : String
  flat_id : String
  created : Nat
deriving DecidableEq, Repr

/-- Visitor session status, from the `Visitor` interface in `src/App.tsx`
(`'In' | 'Out'`). -/
inductive VisitorStatus where
  | In
  | Out
deriving DecidableEq, Repr

/-- A visitor session, from the `Visitor` interface in `src/App.tsx`
(name, tower, flat_id, entry_time, exit_time nullable, status). -/
structure Visitor where
  id : Nat
  name : String
  tower : String
  flat_id : String
  entry_time : Nat
  exit_time : Option Nat
  status : VisitorStatus
deriving DecidableEq, Repr

/-- Complaint status, from the `Complaint` interface in `src/App.tsx`
(`'Pending' | 'In Progress' | 'Resolved'`). -/
inductive ComplaintStatus where
  | Pending
  | InProgress
  | Resolved
deriving DecidableEq, Repr

/-- A complaint, from the `Complaint` interface in `src/App.tsx`. -/
structure Complaint where
  id : Nat
  flat_id : String
  title : String
  description : String
  category : String
  status : ComplaintStatus
  created_at : Nat
deriving DecidableEq, Repr

/-- A broadcast alert, from the `Alert` interface in `src/App.tsx`. -/
structure Alert where
  id : Nat
  tower : String
  title : String
  message : String
  severity : String
  created_at : Nat
deriving DecidableEq, Repr

/-- The operation kinds logged by the engine, one per write operation of the
specification's operation table (plus broadcast creation). -/
inductive ActionKind where
  | GenerateBillsK
  | RecordPaymentK
  | RequestBookingK
  | CheckInK
  | CheckOutK
  | RaiseComplaintK
  | AdvanceComplaintK
  | BroadcastK
deriving DecidableEq, Repr

/-- An activity-log entry, from the `ActivityLog` interface in `src/App.tsx`
(user, action, details, timestamp); the action is the operation kind. -/
structure LogEntry where
  actor : String
  action : ActionKind
  details : String
  timestamp : Nat
deriving DecidableEq, Repr

/-- The failure kinds of the specification's operation table. -/
inductive Err where
  | NotFound
  | AlreadyPaid
  | SlotTaken
  | InvalidSlot
  | PastDate
  | AlreadyOut
  | InvalidTransition
deriving DecidableEq, Repr

/-- The ledger state seen by the engine: the flat set plus every entity list,
with a counter supplying fresh identifiers. -/
structure EngineState where
  flats : List String
  bills : List Bill
  payments : List Payment
  bookings : List Booking
  visitors : List Visitor
  complaints : List Complaint
  alerts : List Alert
  log : List LogEntry
  nextId : Nat
deriving DecidableEq, Repr

/-- The fixed enumerated set of non-overlapping time slots, exactly the
options of the time-slot select in `ResidentBookingsView` (`src/App.tsx`). -/
def timeSlots : List String :=
  ["06:00 AM - 08:00 AM", "08:00 AM - 10:00 AM", "04:00 PM - 06:00 PM", "06:00 PM - 08:00 PM"]

/-- Whether `bills` already holds a bill for the key (flat, month, year). -/
def hasBill (bills : List Bill) (flat m : String) (y : Nat) : Bool :=
  bills.any (fun b => b.flat_id == flat && b.month == m && b.year == y)

/-- One per-flat step of bill generation: skip the flat when a bill for the
period already exists, otherwise create an Unpaid bill with a fresh id. -/
def genStep (m : String) (y amt due : Nat) (acc : List Bill × Nat) (flat : String) :
    List Bill × Nat :=
  if hasBill acc.1 flat m y then acc
  else (⟨acc.2, flat, amt, m, y, due, BillStatus.Unpaid⟩ :: acc.1, acc.2 + 1)

/-- Modelled from the spec: the GenerateBills handler behind
`/api/admin/generate-bills` is not in the repository (only its caller
`AdminMaintenanceView.generateBills` is).  "For every Flat with no existing
Bill for (flat, period), create one with status Unpaid, the given amount and
due date.  Flats that already have a bill for that period are skipped"; one
activity-log entry is appended for the successful operation. -/
def generateBills (m : String) (y amt due now : Nat) (actor : String)
    (s : EngineState) : EngineState :=
  { s with
    bills := (s.flats.foldl (genStep m y amt due) (s.bills, s.nextId)).1
    nextId := (s.flats.foldl (genStep m y amt due) (s.bills, s.nextId)).2
    log := ⟨actor, ActionKind.GenerateBillsK, "generated maintenance bills", now⟩ :: s.log }

/-- Modelled from the spec: the RecordPayment handler is not in the repository
(the seed script only creates already-paid data).  "Fails with AlreadyPaid if
the bill's status is already Paid; fails with NotFound if the bill does not
exist; otherwise atomically creates the Payment and flips the bill to Paid",
appending one activity-log entry. -/
def recordPayment (billId : Nat) (mode ref : String) (now : Nat) (actor : String)
    (s : EngineState) : Except Err EngineState :=
  match s.bills.find? (fun b => b.id == billId) with
  | none => Except.error Err.NotFound
  | some b =>
    if b.status = BillStatus.Paid then Except.error Err.AlreadyPaid
    else Except.ok
      { s with
        bills := s.bills.map (fun b2 =>
          if b2.id == billId then { b2 with status := BillStatus.Paid } else b2)
        payments := ⟨s.nextId, billId, mode, ref, now⟩ :: s.payments
        nextId := s.nextId + 1
        log := ⟨actor, ActionKind.RecordPaymentK, "recorded maintenance payment", now⟩ :: s.log }

/-- Whether some booking in `bookings` already occupies (amenity, date, slot). -/
def slotBooked (bookings : List Booking) (amenity : String) (date : Nat) (slot : String) : Bool :=
  bookings.any (fun b => b.amenity == amenity && b.date == date && b.time_slot == slot)

/-- Modelled from the spec: the RequestBooking handler behind
`/api/resident/book` is not in the repository (only its caller
`ResidentBookingsView.handleBook` is).  "Validates date is not in the past and
time_slot is one of the fixed enumerated slots" (the slot set and the
`min=today` date bound are taken from the booking form in `src/App.tsx`),
then "checks for an existing Booking with the same (amenity, date, time_slot);
if found, fails with SlotTaken ...; otherwise creates the Booking", appending
one activity-log entry. -/
def requestBooking (amenity : String) (date : Nat) (slot flatId : String)
    (today now : Nat) (actor : String) (s : EngineState) : Except Err EngineState :=
  if date < today then Except.error Err.PastDate
  else if ¬ slot ∈ timeSlots then Except.error Err.InvalidSlot
  else if slotBooked s.bookings amenity date slot then Except.error Err.SlotTaken
  else Except.ok
    { s with
      bookings := ⟨s.nextId, amenity, date, slot, flatId, now⟩ :: s.bookings
      nextId := s.nextId + 1
      log := ⟨actor, ActionKind.RequestBookingK, "booked amenity slot", now⟩ :: s.log }

/-- Modelled from the spec: the CheckIn handler behind
`/api/security/visitor-entry` is not in the repository (only its caller
`SecurityNewEntryView.handleSubmit` is).  "Creates a new Visitor Session with
status In and entry timestamp = now", appending one activity-log entry. -/
def checkIn (name tower flatId : String) (now : Nat) (actor : String)
    (s : EngineState) : EngineState :=
  { s with
    visitors := ⟨s.nextId, name, tower, flatId, now, none, VisitorStatus.In⟩ :: s.visitors
    nextId := s.nextId + 1
    log := ⟨actor, ActionKind.CheckInK, "recorded visitor entry", now⟩ :: s.log }

/-- Modelled from the spec: the CheckOut handler behind
`/api/security/visitor-exit` is not in the repository (only its caller
`SecurityVisitorsView.handleExit` is).  "Fails with NotFound if no such
session exists, fails with AlreadyOut if status is already Out; otherwise
sets exit timestamp = now and status = Out", appending one log entry. -/
def checkOut (sessionId : Nat) (now : Nat) (actor : String)
    (s : EngineState) : Except Err EngineState :=
  match s.visitors.find? (fun v => v.id == sessionId) with
  | none => Except.error Err.NotFound
  | some v =>
    if v.status = VisitorStatus.Out then Except.error Err.AlreadyOut
    else Except.ok
      { s with
        visitors := s.visitors.map (fun v2 =>
          if v2.id == sessionId then
            { v2 with status := VisitorStatus.Out, exit_time := some now }
          else v2)
        log := ⟨actor, ActionKind.CheckOutK, "recorded visitor exit", now⟩ :: s.log }

/-- Modelled from the spec: the RaiseComplaint handler behind
`/api/resident/complaints` is not in the repository (only its caller
`ResidentComplaintsView.handleSubmit` is).  "Creates a Complaint with status
Pending", appending one activity-log entry. -/
def raiseComplaint (flatId title description category : String) (now : Nat)
    (actor : String) (s : EngineState) : EngineState :=
  { s with
    complaints :=
      ⟨s.nextId, flatId, title, description, category, ComplaintStatus.Pending, now⟩
        :: s.complaints
    nextId := s.nextId + 1
    log := ⟨actor, ActionKind.RaiseComplaintK, "raised complaint", now⟩ :: s.log }

/-- Position of a complaint status in the forward order
Pending, InProgress, Resolved. -/
def cRank : ComplaintStatus → Nat
  | ComplaintStatus.Pending => 0
  | ComplaintStatus.InProgress => 1
  | ComplaintStatus.Resolved => 2

/-- Modelled from the spec: the AdvanceComplaint handler is not in the
repository (the UI only renders complaint status).  "Fails with
InvalidTransition if new_status does not strictly follow the forward order
Pending, InProgress, Resolved relative to current status (skipping forward
from Pending directly to Resolved is allowed); fails with NotFound if the
complaint does not exist", appending one log entry on success. -/
def advanceComplaint (complaintId : Nat) (newStatus : ComplaintStatus) (now : Nat)
    (actor : String) (s : EngineState) : Except Err EngineState :=
  match s.complaints.find? (fun c => c.id == complaintId) with
  | none => Except.error Err.NotFound
  | some c =>
    if cRank c.status < cRank newStatus then Except.ok
      { s with
        complaints := s.complaints.map (fun c2 =>
          if c2.id == complaintId then { c2 with status := newStatus } else c2)
        log :=
          ⟨actor, ActionKind.AdvanceComplaintK, "advanced complaint status", now⟩ :: s.log }
    else Except.error Err.InvalidTransition

/-- Modelled from the spec: the broadcast handler behind `/api/admin/alerts`
is not in the repository (only its caller `AdminAlertsView.handleSubmit` is).
Appends the broadcast record and one activity-log entry. -/
def broadcastAlert (tower title message severity : String) (now : Nat)
    (actor : String) (s : EngineState) : EngineState :=
  { s with
    alerts := ⟨s.nextId, tower, title, message, severity, now⟩ :: s.alerts
    nextId := s.nextId + 1
    log := ⟨actor, ActionKind.BroadcastK, "broadcast alert", now⟩ :: s.log }

/-- A command issued against the engine, one per operation of the
specification's operation table (plus broadcast creation). -/
inductive Command where
  | generateBills (m : String) (y amt due now : Nat) (actor : String)
  | recordPayment (billId : Nat) (mode ref : String) (now : Nat) (actor : String)
  | requestBooking (amenity : String) (date : Nat) (slot flatId : String)
      (today now : Nat) (actor : String)
  | checkIn (name tower flatId : String) (now : Nat) (actor : String)
  | checkOut (sessionId now : Nat) (actor : String)
  | raiseComplaint (flatId title description category : String) (now : Nat) (actor : String)
  | advanceComplaint (complaintId : Nat) (newStatus : ComplaintStatus) (now : Nat)
      (actor : String)
  | broadcast (tower title message severity : String) (now : Nat) (actor : String)
deriving DecidableEq, Repr

/-- Execute one command as one transaction: either the whole new state or a
failure with no effect. -/
def exec (c : Command) (s : EngineState) : Except Err EngineState :=
  match c with
  | Command.generateBills m y amt due now actor =>
      Except.ok (generateBills m y amt due now actor s)
  | Command.recordPayment billId mode ref now actor =>
      recordPayment billId mode ref now actor s
  | Command.requestBooking amenity date slot flatId today now actor =>
      requestBooking amenity date slot flatId today now actor s
  | Command.checkIn name tower flatId now actor =>
      Except.ok (checkIn name tower flatId now actor s)
  | Command.checkOut sessionId now actor =>
      checkOut sessionId now actor s
  | Command.raiseComplaint flatId title description category now actor =>
      Except.ok (raiseComplaint flatId title description category now actor s)
  | Command.advanceComplaint complaintId newStatus now actor =>
      advanceComplaint complaintId newStatus now actor s
  | Command.broadcast tower title message severity now actor =>
      Except.ok (broadcastAlert tower title message severity now actor s)

/-- The state after a command: a failed command leaves the state unchanged. -/
def applyCmd (c : Command) (s : EngineState) : EngineState :=
  match exec c s with
  | Except.ok s' => s'
  | Except.error _ => s

/-- The engine's start state over a given flat set: no bills, payments,
bookings, sessions, complaints, alerts or log entries yet. -/
def initState (flats : List String) : EngineState :=
  ⟨flats, [], [], [], [], [], [], [], 0⟩

/-- States reachable by running commands from a start state. -/
inductive Reachable : EngineState → Prop where
  | init (flats : List String) : Reachable (initState flats)
  | step (c : Command) (s : EngineState) : Reachable s → Reachable (applyCmd c s)

/-- Two bills have different (flat, period) keys. -/
def BillKeyNe (b1 b2 : Bill) : Prop :=
  ¬ (b1.flat_id = b2.flat_id ∧ b1.month = b2.month ∧ b1.year = b2.year)

/-- Two bookings have different (amenity, date, time_slot) keys. -/
def BookingKeyNe (b1 b2 : Booking) : Prop :=
  ¬ (b1.amenity = b2.amenity ∧ b1.date = b2.date ∧ b1.time_slot = b2.time_slot)

/-- The state invariants the engine maintains. -/
structure Inv (s : EngineState) : Prop where
  bill_ids_lt : ∀ b ∈ s.bills, b.id < s.nextId
  bill_keys : s.bills.Pairwise BillKeyNe
  pay_bill_lt : ∀ p ∈ s.payments, p.bill_id < s.nextId
  pay_iff_paid : ∀ b ∈ s.bills, ((∃ p ∈ s.payments, p.bill_id = b.id) ↔ b.status = BillStatus.Paid)
  booking_keys : s.bookings.Pairwise BookingKeyNe
  booking_slots : ∀ b ∈ s.bookings, b.time_slot ∈ timeSlots
  visitor_ids_lt : ∀ v ∈ s.visitors, v.id < s.nextId
  visitor_ids_nodup : (s.visitors.map Visitor.id).Nodup
  visitor_out_iff : ∀ v ∈ s.visitors, (v.status = VisitorStatus.Out ↔ v.exit_time ≠ none)

/-- Number of log entries recorded for one operation kind. -/
def countLog (a : ActionKind) (s : EngineState) : Nat :=
  s.log.countP (fun e => e.action == a)

/-- The operation kind of a command. -/
def cmdAction : Command → ActionKind
  | Command.generateBills _ _ _ _ _ _ => ActionKind.GenerateBillsK
  | Command.recordPayment _ _ _ _ _ => ActionKind.RecordPaymentK
  | Command.requestBooking _ _ _ _ _ _ _ => ActionKind.RequestBookingK
  | Command.checkIn _ _ _ _ _ => ActionKind.CheckInK
  | Command.checkOut _ _ _ => ActionKind.CheckOutK
  | Command.raiseComplaint _ _ _ _ _ _ => ActionKind.RaiseComplaintK
  | Command.advanceComplaint _ _ _ _ => ActionKind.AdvanceComplaintK
  | Command.broadcast _ _ _ _ _ _ => ActionKind.BroadcastK

/-- Run a command trace, dropping the effect of failed commands. -/
def runTrace : List Command → EngineState → EngineState
  | [], s => s
  | c :: cs, s => runTrace cs (applyCmd c s)

/-- Number of commands in a trace that succeed and have the given kind. -/
def succCount (a : ActionKind) : List Command → EngineState → Nat
  | [], _ => 0
  | c :: cs, s =>
    (match exec c s with
     | Except.ok _ => if cmdAction c = a then 1 else 0
     | Except.error _ => 0) + succCount a cs (applyCmd c s)

/-- The flat-number list offered by the registration form for a tower, from
`src/App.tsx` lines 235-245: 28 entries, floor `i / 4 + 1`, unit `i % 4 + 1`,
label `tower-floor0unit`. -/
def uiAvailableFlats (tower : String) : List String :=
  (List.range 28).map (fun i =>
    let floor := i / 4 + 1
    let num := i % 4 + 1
    tower ++ ("-" ++ (toString floor ++ ("0" ++ toString num))))

/-- The per-tower flat labels created by the seed script
(`prisma/seed.ts` lines 43-53): floors 1..7, flats 1..4, label
`floor0flatNum`. -/
def seedFlatLabels : List String :=
  ((List.range 7).map (· + 1)).flatMap (fun floor =>
    ((List.range 4).map (· + 1)).map (fun flatNum =>
      toString floor ++ ("0" ++ toString flatNum)))

/-! ### Lemmas about bill generation -/

theorem hasBill_cons (b : Bill) (bills : List Bill) (flat m : String) (y : Nat)
    (h : hasBill bills flat m y = true) : hasBill (b :: bills) flat m y = true := by
  simp only [hasBill, List.any_cons, Bool.or_eq_true] at *
  exact Or.inr h

theorem hasBill_genStep (m : String) (y amt due : Nat) (acc : List Bill × Nat)
    (flat flat' m' : String) (y' : Nat) (h : hasBill acc.1 flat' m' y' = true) :
    hasBill (genStep m y amt due acc flat).1 flat' m' y' = true := by
  unfold genStep
  split
  · exact h
  · exact hasBill_cons _ _ _ _ _ h

theorem genStep_pos (m : String) (y amt due : Nat) (acc : List Bill × Nat)
    (flat : String) (h : hasBill acc.1 flat m y = true) :
    genStep m y amt due acc flat = acc := by
  unfold genStep
  exact if_pos h

theorem genStep_neg (m : String) (y amt due : Nat) (acc : List Bill × Nat)
    (flat : String) (h : ¬ hasBill acc.1 flat m y = true) :
    genStep m y amt due acc flat =
      (⟨acc.2, flat, amt, m, y, due, BillStatus.Unpaid⟩ :: acc.1, acc.2 + 1) := by
  unfold genStep
  exact if_neg h

theorem genFold_pre (m : String) (y amt due : Nat) (flats : List String)
    (bills : List Bill) (n : Nat) :
    ∃ pre, (flats.foldl (genStep m y amt due) (bills, n)).1 = pre ++ bills ∧
      n ≤ (flats.foldl (genStep m y amt due) (bills, n)).2 ∧
      ∀ b ∈ pre, b.status = BillStatus.Unpaid ∧ n ≤ b.id ∧
        b.id < (flats.foldl (genStep m y amt due) (bills, n)).2 := by
  induction flats generalizing bills n with
  | nil => exact ⟨[], rfl, Nat.le_refl n, by simp⟩
  | cons flat flats ih =>
    by_cases hB : hasBill bills flat m y = true
    · simp only [List.foldl_cons, genStep_pos m y amt due (bills, n) flat hB]
      exact ih bills n
    · simp only [List.foldl_cons, genStep_neg m y amt due (bills, n) flat hB]
      obtain ⟨pre, hpre, hle, hall⟩ :=
        ih (⟨n, flat, amt, m, y, due, BillStatus.Unpaid⟩ :: bills) (n + 1)
      refine ⟨pre ++ [⟨n, flat, amt, m, y, due, BillStatus.Unpaid⟩],
        by rw [hpre, List.append_assoc, List.singleton_append],
        Nat.le_trans (Nat.le_succ n) hle, ?_⟩
      intro b hb
      rcases List.mem_append.mp hb with hb | hb
      · obtain ⟨h1, h2, h3⟩ := hall b hb
        exact ⟨h1, Nat.le_trans (Nat.le_succ n) h2, h3⟩
      · simp only [List.mem_singleton] at hb
        subst hb
        exact ⟨rfl, Nat.le_refl n, Nat.lt_of_lt_of_le (Nat.lt_succ_self n) hle⟩

theorem genFold_keys (m : String) (y amt due : Nat) (flats : List String)
    (bills : List Bill) (n : Nat) (h : bills.Pairwise BillKeyNe) :
    (flats.foldl (genStep m y amt due) (bills, n)).1.Pairwise BillKeyNe := by
  induction flats generalizing bills n with
  | nil => exact h
  | cons flat flats ih =>
    by_cases hB : hasBill bills flat m y = true
    · simp only [List.foldl_cons, genStep_pos m y amt due (bills, n) flat hB]
      exact ih bills n h
    · simp only [List.foldl_cons, genStep_neg m y amt due (bills, n) flat hB]
      refine ih _ _ (List.pairwise_cons.mpr ⟨?_, h⟩)
      intro b hb hkey
      apply hB
      simp only [hasBill, List.any_eq_true, Bool.and_eq_true, beq_iff_eq]
      exact ⟨b, hb, ⟨hkey.1.symm, hkey.2.1.symm⟩, hkey.2.2.symm⟩

theorem genFold_mono (m : String) (y amt due : Nat) (flats : List String)
    (acc : List Bill × Nat) (flat' m' : String) (y' : Nat)
    (h : hasBill acc.1 flat' m' y' = true) :
    hasBill (flats.foldl (genStep m y amt due) acc).1 flat' m' y' = true := by
  induction flats generalizing acc with
  | nil => exact h
  | cons flat flats ih =>
    simp only [List.foldl_cons]
    exact ih _ (hasBill_genStep m y amt due acc flat flat' m' y' h)

theorem genFold_complete (m : String) (y amt due : Nat) (flats : List String)
    (bills : List Bill) (n : Nat) :
    ∀ flat ∈ flats, hasBill (flats.foldl (genStep m y amt due) (bills, n)).1 flat m y = true := by
  induction flats generalizing bills n with
  | nil => intro flat h; exact absurd h (List.not_mem_nil flat)
  | cons f flats ih =>
    intro flat h
    simp only [List.foldl_cons]
    rcases List.mem_cons.mp h with h | h
    · subst h
      refine genFold_mono m y amt due flats _ flat m y ?_
      unfold genStep
      split
      · assumption
      · simp [hasBill]
    · unfold genStep
      split
      · exact ih bills n flat h
      · exact ih _ _ flat h

theorem genFold_noop (m : String) (y amt due : Nat) (flats : List String)
    (bills : List Bill) (n : Nat) (h : ∀ flat ∈ flats, hasBill bills flat m y = true) :
    flats.foldl (genStep m y amt due) (bills, n) = (bills, n) := by
  induction flats with
  | nil => rfl
  | cons flat flats ih =>
    simp only [List.foldl_cons]
    unfold genStep
    rw [if_pos (h flat (List.mem_cons_self flat flats))]
    exact ih (fun f hf => h f (List.mem_cons_of_mem flat hf))

theorem generateBills_idempotent (m : String) (y amt due now now2 : Nat)
    (actor actor2 : String) (s : EngineState) :
    (generateBills m y amt due now2 actor2 (generateBills m y amt due now actor s)).bills =
      (generateBills m y amt due now actor s).bills := by
  unfold generateBills
  simp only
  rw [genFold_noop m y amt due s.flats _ _
    (genFold_complete m y amt due s.flats s.bills s.nextId)]

/-! ### Inversion and computation lemmas for the fallible operations -/

theorem recordPayment_notFound (billId : Nat) (mode ref : String) (now : Nat)
    (actor : String) (s : EngineState)
    (h : s.bills.find? (fun b => b.id == billId) = none) :
    recordPayment billId mode ref now actor s = Except.error Err.NotFound := by
  unfold recordPayment
  rw [h]

theorem recordPayment_alreadyPaid (billId : Nat) (mode ref : String) (now : Nat)
    (actor : String) (s : EngineState) (b : Bill)
    (hf : s.bills.find? (fun b => b.id == billId) = some b)
    (hp : b.status = BillStatus.Paid) :
    recordPayment billId mode ref now actor s = Except.error Err.AlreadyPaid := by
  unfold recordPayment
  rw [hf]
  exact if_pos hp

theorem recordPayment_ok (billId : Nat) (mode ref : String) (now : Nat)
    (actor : String) (s : EngineState) (b : Bill)
    (hf : s.bills.find? (fun b => b.id == billId) = some b)
    (hp : ¬ b.status = BillStatus.Paid) :
    recordPayment billId mode ref now actor s = Except.ok
      { s with
        bills := s.bills.map (fun b2 =>
          if b2.id == billId then { b2 with status := BillStatus.Paid } else b2)
        payments := ⟨s.nextId, billId, mode, ref, now⟩ :: s.payments
        nextId := s.nextId + 1
        log := ⟨actor, ActionKind.RecordPaymentK, "recorded maintenance payment", now⟩
          :: s.log } := by
  unfold recordPayment
  rw [hf]
  exact if_neg hp

theorem recordPayment_ok_inv (billId : Nat) (mode ref : String) (now : Nat)
    (actor : String) (s s' : EngineState)
    (h : recordPayment billId mode ref now actor s = Except.ok s') :
    ∃ b, s.bills.find? (fun b => b.id == billId) = some b ∧
      ¬ b.status = BillStatus.Paid ∧
      s' = { s with
        bills := s.bills.map (fun b2 =>
          if b2.id == billId then { b2 with status := BillStatus.Paid } else b2)
        payments := ⟨s.nextId, billId, mode, ref, now⟩ :: s.payments
        nextId := s.nextId + 1
        log := ⟨actor, ActionKind.RecordPaymentK, "recorded maintenance payment", now⟩
          :: s.log } := by
  unfold recordPayment at h
  split at h
  · exact Except.noConfusion h
  · rename_i b hf
    split at h
    · exact Except.noConfusion h
    · rename_i hp
      injection h with h
      exact ⟨b, hf, hp, h.symm⟩

theorem requestBooking_past (amenity : String) (date : Nat) (slot flatId : String)
    (today now : Nat) (actor : String) (s : EngineState) (h : date < today) :
    requestBooking amenity date slot flatId today now actor s = Except.error Err.PastDate := by
  unfold requestBooking
  rw [if_pos h]

theorem requestBooking_invalidSlot (amenity : String) (date : Nat) (slot flatId : String)
    (today now : Nat) (actor : String) (s : EngineState)
    (h1 : ¬ date < today) (h2 : ¬ slot ∈ timeSlots) :
    requestBooking amenity date slot flatId today now actor s =
      Except.error Err.InvalidSlot := by
  unfold requestBooking
  rw [if_neg h1, if_pos h2]

theorem requestBooking_taken (amenity : String) (date : Nat) (slot flatId : String)
    (today now : Nat) (actor : String) (s : EngineState)
    (h1 : ¬ date < today) (h2 : slot ∈ timeSlots)
    (h3 : slotBooked s.bookings amenity date slot = true) :
    requestBooking amenity date slot flatId today now actor s =
      Except.error Err.SlotTaken := by
  unfold requestBooking
  rw [if_neg h1, if_neg (not_not_intro h2), if_pos h3]

theorem requestBooking_ok (amenity : String) (date : Nat) (slot flatId : String)
    (today now : Nat) (actor : String) (s : EngineState)
    (h1 : ¬ date < today) (h2 : slot ∈ timeSlots)
    (h3 : ¬ slotBooked s.bookings amenity date slot = true) :
    requestBooking amenity date slot flatId today now actor s = Except.ok
      { s with
        bookings := ⟨s.nextId, amenity, date, slot, flatId, now⟩ :: s.bookings
        nextId := s.nextId + 1
        log := ⟨actor, ActionKind.RequestBookingK, "booked amenity slot", now⟩ :: s.log } := by
  unfold requestBooking
  rw [if_neg h1, if_neg (not_not_intro h2), if_neg h3]

theorem requestBooking_ok_inv (amenity : String) (date : Nat) (slot flatId : String)
    (today now : Nat) (actor : String) (s s' : EngineState)
    (h : requestBooking amenity date slot flatId today now actor s = Except.ok s') :
    ¬ date < today ∧ slot ∈ timeSlots ∧
      ¬ slotBooked s.bookings amenity date slot = true ∧
      s' = { s with
        bookings := ⟨s.nextId, amenity, date, slot, flatId, now⟩ :: s.bookings
        nextId := s.nextId + 1
        log := ⟨actor, ActionKind.RequestBookingK, "booked amenity slot", now⟩ :: s.log } := by
  unfold requestBooking at h
  split at h
  · exact Except.noConfusion h
  · split at h
    · exact Except.noConfusion h
    · split at h
      · exact Except.noConfusion h
      · rename_i h1 h2 h3
        injection h with h
        exact ⟨h1, not_not.mp h2, h3, h.symm⟩

theorem checkOut_notFound (sessionId now : Nat) (actor : String) (s : EngineState)
    (h : s.visitors.find? (fun v => v.id == sessionId) = none) :
    checkOut sessionId now actor s = Except.error Err.NotFound := by
  unfold checkOut
  rw [h]

theorem checkOut_alreadyOut (sessionId now : Nat) (actor : String) (s : EngineState)
    (v : Visitor) (hf : s.visitors.find? (fun v => v.id == sessionId) = some v)
    (ho : v.status = VisitorStatus.Out) :
    checkOut sessionId now actor s = Except.error Err.AlreadyOut := by
  unfold checkOut
  rw [hf]
  exact if_pos ho

theorem checkOut_ok (sessionId now : Nat) (actor : String) (s : EngineState)
    (v : Visitor) (hf : s.visitors.find? (fun v => v.id == sessionId) = some v)
    (ho : ¬ v.status = VisitorStatus.Out) :
    checkOut sessionId now actor s = Except.ok
      { s with
        visitors := s.visitors.map (fun v2 =>
          if v2.id == sessionId then
            { v2 with status := VisitorStatus.Out, exit_time := some now }
          else v2)
        log := ⟨actor, ActionKind.CheckOutK, "recorded visitor exit", now⟩ :: s.log } := by
  unfold checkOut
  rw [hf]
  exact if_neg ho

theorem checkOut_ok_inv (sessionId now : Nat) (actor : String) (s s' : EngineState)
    (h : checkOut sessionId now actor s = Except.ok s') :
    ∃ v, s.visitors.find? (fun v => v.id == sessionId) = some v ∧
      ¬ v.status = VisitorStatus.Out ∧
      s' = { s with
        visitors := s.visitors.map (fun v2 =>
          if v2.id == sessionId then
            { v2 with status := VisitorStatus.Out, exit_time := some now }
          else v2)
        log := ⟨actor, ActionKind.CheckOutK, "recorded visitor exit", now⟩ :: s.log } := by
  unfold checkOut at h
  split at h
  · exact Except.noConfusion h
  · rename_i v hf
    split at h
    · exact Except.noConfusion h
    · rename_i ho
      injection h with h
      exact ⟨v, hf, ho, h.symm⟩

theorem advanceComplaint_notFound (complaintId : Nat) (newStatus : ComplaintStatus)
    (now : Nat) (actor : String) (s : EngineState)
    (h : s.complaints.find? (fun c => c.id == complaintId) = none) :
    advanceComplaint complaintId newStatus now actor s = Except.error Err.NotFound := by
  unfold advanceComplaint
  rw [h]

theorem advanceComplaint_invalid (complaintId : Nat) (newStatus : ComplaintStatus)
    (now : Nat) (actor : String) (s : EngineState) (c : Complaint)
    (hf : s.complaints.find? (fun c => c.id == complaintId) = some c)
    (hr : ¬ cRank c.status < cRank newStatus) :
    advanceComplaint complaintId newStatus now actor s =
      Except.error Err.InvalidTransition := by
  unfold advanceComplaint
  rw [hf]
  exact if_neg hr

theorem advanceComplaint_ok (complaintId : Nat) (newStatus : ComplaintStatus)
    (now : Nat) (actor : String) (s : EngineState) (c : Complaint)
    (hf : s.complaints.find? (fun c => c.id == complaintId) = some c)
    (hr : cRank c.status < cRank newStatus) :
    advanceComplaint complaintId newStatus now actor s = Except.ok
      { s with
        complaints := s.complaints.map (fun c2 =>
          if c2.id == complaintId then { c2 with status := newStatus } else c2)
        log := ⟨actor, ActionKind.AdvanceComplaintK, "advanced complaint status", now⟩
          :: s.log } := by
  unfold advanceComplaint
  rw [hf]
  exact if_pos hr

theorem advanceComplaint_ok_inv (complaintId : Nat) (newStatus : ComplaintStatus)
    (now : Nat) (actor : String) (s s' : EngineState)
    (h : advanceComplaint complaintId newStatus now actor s = Except.ok s') :
    ∃ c, s.complaints.find? (fun c => c.id == complaintId) = some c ∧
      cRank c.status < cRank newStatus ∧
      s' = { s with
        complaints := s.complaints.map (fun c2 =>
          if c2.id == complaintId then { c2 with status := newStatus } else c2)
        log := ⟨actor, ActionKind.AdvanceComplaintK, "advanced complaint status", now⟩
          :: s.log } := by
  unfold advanceComplaint at h
  split at h
  · exact Except.noConfusion h
  · rename_i c hf
    split at h
    · rename_i hr
      injection h with h
      exact ⟨c, hf, hr, h.symm⟩
    · exact Except.noConfusion h

/-! ### Invariant preservation -/

theorem Inv_initState (flats : List String) : Inv (initState flats) := by
  refine ⟨?_, ?_, ?_, ?_, ?_, ?_, ?_, ?_, ?_⟩ <;> simp [initState]

theorem Inv_generateBills (m : String) (y amt due now : Nat) (actor : String)
    (s : EngineState) (h : Inv s) : Inv (generateBills m y amt due now actor s) := by
  obtain ⟨pre, hpre, hle, hall⟩ := genFold_pre m y amt due s.flats s.bills s.nextId
  have hkeys := genFold_keys m y amt due s.flats s.bills s.nextId h.bill_keys
  refine ⟨?_, ?_, ?_, ?_, ?_, ?_, ?_, ?_, ?_⟩
  · intro b hb
    replace hb : b ∈ pre ++ s.bills := by rw [← hpre]; exact hb
    rcases List.mem_append.mp hb with hb | hb
    · exact (hall b hb).2.2
    · exact Nat.lt_of_lt_of_le (h.bill_ids_lt b hb) hle
  · exact hkeys
  · intro p hp
    exact Nat.lt_of_lt_of_le (h.pay_bill_lt p hp) hle
  · intro b hb
    replace hb : b ∈ pre ++ s.bills := by rw [← hpre]; exact hb
    rcases List.mem_append.mp hb with hb | hb
    · obtain ⟨hst, hge, _⟩ := hall b hb
      constructor
      · rintro ⟨p, hp, hpe⟩
        have hlt := h.pay_bill_lt p hp
        rw [hpe] at hlt
        exact absurd hlt (Nat.not_lt.mpr hge)
      · intro hpaid
        rw [hst] at hpaid
        exact BillStatus.noConfusion hpaid
    · exact h.pay_iff_paid b hb
  · exact h.booking_keys
  · exact h.booking_slots
  · intro v hv
    exact Nat.lt_of_lt_of_le (h.visitor_ids_lt v hv) hle
  · exact h.visitor_ids_nodup
  · exact h.visitor_out_iff

theorem Inv_recordPayment_ok (billId : Nat) (mode ref : String) (now : Nat)
    (actor : String) (s s' : EngineState) (h : Inv s)
    (hx : recordPayment billId mode ref now actor s = Except.ok s') : Inv s' := by
  obtain ⟨b0, hf, hp0, rfl⟩ := recordPayment_ok_inv billId mode ref now actor s s' hx
  have hb0mem : b0 ∈ s.bills := List.mem_of_find?_eq_some hf
  have hb0id : b0.id = billId := by simpa using List.find?_some hf
  have hid : ∀ b : Bill,
      (if b.id == billId then { b with status := BillStatus.Paid } else b).id = b.id := by
    intro b; split <;> rfl
  have hkey : ∀ b : Bill,
      (if b.id == billId then { b with status := BillStatus.Paid } else b).flat_id = b.flat_id ∧
      (if b.id == billId then { b with status := BillStatus.Paid } else b).month = b.month ∧
      (if b.id == billId then { b with status := BillStatus.Paid } else b).year = b.year := by
    intro b; split <;> exact ⟨rfl, rfl, rfl⟩
  refine ⟨?_, ?_, ?_, ?_, ?_, ?_, ?_, ?_, ?_⟩
  · intro b hb
    obtain ⟨a, ha, rfl⟩ := List.mem_map.mp hb
    rw [hid a]
    exact Nat.lt_succ_of_lt (h.bill_ids_lt a ha)
  · refine List.pairwise_map.mpr (h.bill_keys.imp ?_)
    intro a b hab hkeq
    exact hab ⟨((hkey a).1).symm.trans (hkeq.1.trans (hkey b).1),
      ((hkey a).2.1).symm.trans (hkeq.2.1.trans (hkey b).2.1),
      ((hkey a).2.2).symm.trans (hkeq.2.2.trans (hkey b).2.2)⟩
  · intro p hp
    rcases List.mem_cons.mp hp with rfl | hp
    · have := h.bill_ids_lt b0 hb0mem
      rw [hb0id] at this
      exact Nat.lt_succ_of_lt this
    · exact Nat.lt_succ_of_lt (h.pay_bill_lt p hp)
  · intro b hb
    obtain ⟨a, ha, rfl⟩ := List.mem_map.mp hb
    by_cases hcase : a.id = billId
    · rw [if_pos (beq_iff_eq.mpr hcase)]
      constructor
      · intro _; rfl
      · intro _
        exact ⟨⟨s.nextId, billId, mode, ref, now⟩, List.mem_cons_self _ _, hcase.symm⟩
    · rw [if_neg (fun hc => hcase (beq_iff_eq.mp hc))]
      rw [← h.pay_iff_paid a ha]
      constructor
      · rintro ⟨p, hp, hpe⟩
        rcases List.mem_cons.mp hp with rfl | hp
        · exact absurd hpe.symm hcase
        · exact ⟨p, hp, hpe⟩
      · rintro ⟨p, hp, hpe⟩
        exact ⟨p, List.mem_cons_of_mem _ hp, hpe⟩
  · exact h.booking_keys
  · exact h.booking_slots
  · intro v hv
    exact Nat.lt_succ_of_lt (h.visitor_ids_lt v hv)
  · exact h.visitor_ids_nodup
  · exact h.visitor_out_iff

theorem Inv_requestBooking_ok (amenity : String) (date : Nat) (slot flatId : String)
    (today now : Nat) (actor : String) (s s' : EngineState) (h : Inv s)
    (hx : requestBooking amenity date slot flatId today now actor s = Except.ok s') :
    Inv s' := by
  obtain ⟨h1, h2, h3, rfl⟩ :=
    requestBooking_ok_inv amenity date slot flatId today now actor s s' hx
  refine ⟨?_, ?_, ?_, ?_, ?_, ?_, ?_, ?_, ?_⟩
  · intro b hb; exact Nat.lt_succ_of_lt (h.bill_ids_lt b hb)
  · exact h.bill_keys
  · intro p hp; exact Nat.lt_succ_of_lt (h.pay_bill_lt p hp)
  · exact h.pay_iff_paid
  · refine List.pairwise_cons.mpr ⟨?_, h.booking_keys⟩
    intro b hb hkeq
    apply h3
    simp only [slotBooked, List.any_eq_true, Bool.and_eq_true, beq_iff_eq]
    exact ⟨b, hb, ⟨hkeq.1.symm, hkeq.2.1.symm⟩, hkeq.2.2.symm⟩
  · intro b hb
    rcases List.mem_cons.mp hb with rfl | hb
    · exact h2
    · exact h.booking_slots b hb
  · intro v hv; exact Nat.lt_succ_of_lt (h.visitor_ids_lt v hv)
  · exact h.visitor_ids_nodup
  · exact h.visitor_out_iff

theorem Inv_checkIn (name tower flatId : String) (now : Nat) (actor : String)
    (s : EngineState) (h : Inv s) : Inv (checkIn name tower flatId now actor s) := by
  refine ⟨?_, ?_, ?_, ?_, ?_, ?_, ?_, ?_, ?_⟩
  · intro b hb; exact Nat.lt_succ_of_lt (h.bill_ids_lt b hb)
  · exact h.bill_keys
  · intro p hp; exact Nat.lt_succ_of_lt (h.pay_bill_lt p hp)
  · exact h.pay_iff_paid
  · exact h.booking_keys
  · exact h.booking_slots
  · intro v hv
    rcases List.mem_cons.mp hv with rfl | hv
    · exact Nat.lt_succ_self s.nextId
    · exact Nat.lt_succ_of_lt (h.visitor_ids_lt v hv)
  · refine List.nodup_cons.mpr ⟨?_, h.visitor_ids_nodup⟩
    intro hmem
    obtain ⟨v, hv, hvid⟩ := List.mem_map.mp hmem
    have := h.visitor_ids_lt v hv
    rw [hvid] at this
    exact Nat.lt_irrefl s.nextId this
  · intro v hv
    rcases List.mem_cons.mp hv with rfl | hv
    · constructor
      · intro hst; exact VisitorStatus.noConfusion hst
      · intro hex; exact absurd rfl hex
    · exact h.visitor_out_iff v hv

theorem Inv_checkOut_ok (sessionId now : Nat) (actor : String) (s s' : EngineState)
    (h : Inv s) (hx : checkOut sessionId now actor s = Except.ok s') : Inv s' := by
  obtain ⟨v0, hf, ho0, rfl⟩ := checkOut_ok_inv sessionId now actor s s' hx
  have hid : ∀ v : Visitor,
      (if v.id == sessionId then
        { v with status := VisitorStatus.Out, exit_time := some now } else v).id = v.id := by
    intro v; split <;> rfl
  refine ⟨?_, ?_, ?_, ?_, ?_, ?_, ?_, ?_, ?_⟩
  · exact h.bill_ids_lt
  · exact h.bill_keys
  · exact h.pay_bill_lt
  · exact h.pay_iff_paid
  · exact h.booking_keys
  · exact h.booking_slots
  · intro v hv
    obtain ⟨a, ha, rfl⟩ := List.mem_map.mp hv
    rw [hid a]
    exact h.visitor_ids_lt a ha
  · show ((s.visitors.map fun v2 => if v2.id == sessionId then
        { v2 with status := VisitorStatus.Out, exit_time := some now } else v2).map
        Visitor.id).Nodup
    rw [List.map_map]
    have heq : s.visitors.map (Visitor.id ∘ fun v2 => if v2.id == sessionId then
        { v2 with status := VisitorStatus.Out, exit_time := some now } else v2)
        = s.visitors.map Visitor.id :=
      List.map_congr_left (fun a _ => hid a)
    rw [heq]
    exact h.visitor_ids_nodup
  · intro v hv
    obtain ⟨a, ha, rfl⟩ := List.mem_map.mp hv
    by_cases hc : (a.id == sessionId) = true
    · rw [if_pos hc]
      constructor
      · intro _; exact Option.some_ne_none now
      · intro _; rfl
    · rw [if_neg hc]
      exact h.visitor_out_iff a ha

theorem Inv_raiseComplaint (flatId title description category : String) (now : Nat)
    (actor : String) (s : EngineState) (h : Inv s) :
    Inv (raiseComplaint flatId title description category now actor s) := by
  refine ⟨?_, ?_, ?_, ?_, ?_, ?_, ?_, ?_, ?_⟩
  · intro b hb; exact Nat.lt_succ_of_lt (h.bill_ids_lt b hb)
  · exact h.bill_keys
  · intro p hp; exact Nat.lt_succ_of_lt (h.pay_bill_lt p hp)
  · exact h.pay_iff_paid
  · exact h.booking_keys
  · exact h.booking_slots
  · intro v hv; exact Nat.lt_succ_of_lt (h.visitor_ids_lt v hv)
  · exact h.visitor_ids_nodup
  · exact h.visitor_out_iff

theorem Inv_advanceComplaint_ok (complaintId : Nat) (newStatus : ComplaintStatus)
    (now : Nat) (actor : String) (s s' : EngineState) (h : Inv s)
    (hx : advanceComplaint complaintId newStatus now actor s = Except.ok s') : Inv s' := by
  obtain ⟨c0, hf, hr, rfl⟩ := advanceComplaint_ok_inv complaintId newStatus now actor s s' hx
  exact ⟨h.bill_ids_lt, h.bill_keys, h.pay_bill_lt, h.pay_iff_paid, h.booking_keys,
    h.booking_slots, h.visitor_ids_lt, h.visitor_ids_nodup, h.visitor_out_iff⟩

theorem Inv_broadcast (tower title message severity : String) (now : Nat)
    (actor : String) (s : EngineState) (h : Inv s) :
    Inv (broadcastAlert tower title message severity now actor s) := by
  refine ⟨?_, ?_, ?_, ?_, ?_, ?_, ?_, ?_, ?_⟩
  · intro b hb; exact Nat.lt_succ_of_lt (h.bill_ids_lt b hb)
  · exact h.bill_keys
  · intro p hp; exact Nat.lt_succ_of_lt (h.pay_bill_lt p hp)
  · exact h.pay_iff_paid
  · exact h.booking_keys
  · exact h.booking_slots
  · intro v hv; exact Nat.lt_succ_of_lt (h.visitor_ids_lt v hv)
  · exact h.visitor_ids_nodup
  · exact h.visitor_out_iff

theorem Inv_applyCmd (c : Command) (s : EngineState) (h : Inv s) : Inv (applyCmd c s) := by
  cases c with
  | generateBills m y amt due now actor =>
    exact Inv_generateBills m y amt due now actor s h
  | recordPayment billId mode ref now actor =>
    simp only [applyCmd, exec]
    split
    · rename_i s' hx
      exact Inv_recordPayment_ok billId mode ref now actor s s' h hx
    · exact h
  | requestBooking amenity date slot flatId today now actor =>
    simp only [applyCmd, exec]
    split
    · rename_i s' hx
      exact Inv_requestBooking_ok amenity date slot flatId today now actor s s' h hx
    · exact h
  | checkIn name tower flatId now actor =>
    exact Inv_checkIn name tower flatId now actor s h
  | checkOut sessionId now actor =>
    simp only [applyCmd, exec]
    split
    · rename_i s' hx
      exact Inv_checkOut_ok sessionId now actor s s' h hx
    · exact h
  | raiseComplaint flatId title description category now actor =>
    exact Inv_raiseComplaint flatId title description category now actor s h
  | advanceComplaint complaintId newStatus now actor =>
    simp only [applyCmd, exec]
    split
    · rename_i s' hx
      exact Inv_advanceComplaint_ok complaintId newStatus now actor s s' h hx
    · exact h
  | broadcast tower title message severity now actor =>
    exact Inv_broadcast tower title message severity now actor s h

theorem Reachable_Inv (s : EngineState) (h : Reachable s) : Inv s := by
  induction h with
  | init flats => exact Inv_initState flats
  | step c s hs ih => exact Inv_applyCmd c s ih

/-! ### Stability of closed visitor sessions, and find? over id-preserving maps -/

theorem find?_map_same {α : Type} (p : α → Bool) (f : α → α) (l : List α)
    (hpf : ∀ a, p (f a) = p a) :
    (l.map f).find? p = (l.find? p).map f := by
  rw [List.find?_map]
  have hfp : p ∘ f = p := funext hpf
  rw [hfp]

theorem out_visitor_preserved (s : EngineState) (h : Inv s) (v : Visitor)
    (hv : v ∈ s.visitors) (ho : v.status = VisitorStatus.Out) (c : Command) :
    v ∈ (applyCmd c s).visitors := by
  cases c with
  | generateBills m y amt due now actor => exact hv
  | recordPayment billId mode ref now actor =>
    simp only [applyCmd, exec]
    split
    · rename_i s' hx
      obtain ⟨b0, hf, hp0, rfl⟩ := recordPayment_ok_inv billId mode ref now actor s s' hx
      exact hv
    · exact hv
  | requestBooking amenity date slot flatId today now actor =>
    simp only [applyCmd, exec]
    split
    · rename_i s' hx
      obtain ⟨h1, h2, h3, rfl⟩ :=
        requestBooking_ok_inv amenity date slot flatId today now actor s s' hx
      exact hv
    · exact hv
  | checkIn name tower flatId now actor =>
    exact List.mem_cons_of_mem _ hv
  | checkOut sessionId now actor =>
    simp only [applyCmd, exec]
    split
    · rename_i s' hx
      obtain ⟨v0, hf, ho0, rfl⟩ := checkOut_ok_inv sessionId now actor s s' hx
      have hne : ¬ (v.id == sessionId) = true := by
        intro hc
        have hv0mem := List.mem_of_find?_eq_some hf
        have hv0id : v0.id = sessionId := by simpa using List.find?_some hf
        have hvv : v = v0 :=
          List.inj_on_of_nodup_map h.visitor_ids_nodup hv hv0mem
            ((beq_iff_eq.mp hc).trans hv0id.symm)
        rw [hvv] at ho
        exact ho0 ho
      have hupd : (if v.id == sessionId then
          { v with status := VisitorStatus.Out, exit_time := some now } else v) = v :=
        if_neg hne
      rw [← hupd]
      exact List.mem_map_of_mem _ hv
    · exact hv
  | raiseComplaint flatId title description category now actor => exact hv
  | advanceComplaint complaintId newStatus now actor =>
    simp only [applyCmd, exec]
    split
    · rename_i s' hx
      obtain ⟨c0, hf, hr, rfl⟩ := advanceComplaint_ok_inv complaintId newStatus now actor s s' hx
      exact hv
    · exact hv
  | broadcast tower title message severity now actor => exact hv

/-! ### Activity-log accounting -/

theorem exec_ok_log (c : Command) (s s' : EngineState) (h : exec c s = Except.ok s') :
    ∃ e : LogEntry, e.action = cmdAction c ∧ s'.log = e :: s.log := by
  cases c with
  | generateBills m y amt due now actor =>
    injection h with h
    exact ⟨⟨actor, ActionKind.GenerateBillsK, "generated maintenance bills", now⟩,
      rfl, by rw [← h]; rfl⟩
  | recordPayment billId mode ref now actor =>
    obtain ⟨b0, hf, hp0, rfl⟩ := recordPayment_ok_inv billId mode ref now actor s s' h
    exact ⟨⟨actor, ActionKind.RecordPaymentK, "recorded maintenance payment", now⟩, rfl, rfl⟩
  | requestBooking amenity date slot flatId today now actor =>
    obtain ⟨h1, h2, h3, rfl⟩ :=
      requestBooking_ok_inv amenity date slot flatId today now actor s s' h
    exact ⟨⟨actor, ActionKind.RequestBookingK, "booked amenity slot", now⟩, rfl, rfl⟩
  | checkIn name tower flatId now actor =>
    injection h with h
    exact ⟨⟨actor, ActionKind.CheckInK, "recorded visitor entry", now⟩, rfl, by rw [← h]; rfl⟩
  | checkOut sessionId now actor =>
    obtain ⟨v0, hf, ho0, rfl⟩ := checkOut_ok_inv sessionId now actor s s' h
    exact ⟨⟨actor, ActionKind.CheckOutK, "recorded visitor exit", now⟩, rfl, rfl⟩
  | raiseComplaint flatId title description category now actor =>
    injection h with h
    exact ⟨⟨actor, ActionKind.RaiseComplaintK, "raised complaint", now⟩, rfl, by rw [← h]; rfl⟩
  | advanceComplaint complaintId newStatus now actor =>
    obtain ⟨c0, hf, hr, rfl⟩ := advanceComplaint_ok_inv complaintId newStatus now actor s s' h
    exact ⟨⟨actor, ActionKind.AdvanceComplaintK, "advanced complaint status", now⟩, rfl, rfl⟩
  | broadcast tower title message severity now actor =>
    injection h with h
    exact ⟨⟨actor, ActionKind.BroadcastK, "broadcast alert", now⟩, rfl, by rw [← h]; rfl⟩

theorem exec_error_applyCmd (c : Command) (s : EngineState) (e : Err)
    (h : exec c s = Except.error e) : applyCmd c s = s := by
  unfold applyCmd
  rw [h]

theorem countLog_applyCmd_ok (a : ActionKind) (c : Command) (s s' : EngineState)
    (hx : exec c s = Except.ok s') :
    countLog a (applyCmd c s) = countLog a s + (if cmdAction c = a then 1 else 0) := by
  have happ : applyCmd c s = s' := by unfold applyCmd; rw [hx]
  obtain ⟨e, he, hlog⟩ := exec_ok_log c s s' hx
  rw [happ]
  unfold countLog
  rw [hlog, List.countP_cons]
  congr 1
  by_cases hca : cmdAction c = a
  · rw [if_pos hca, if_pos (by rw [he]; exact beq_iff_eq.mpr hca)]
  · rw [if_neg hca, if_neg (fun hb => hca (by rw [← he]; exact beq_iff_eq.mp hb))]

theorem countLog_runTrace (a : ActionKind) (cs : List Command) (s : EngineState) :
    countLog a (runTrace cs s) = countLog a s + succCount a cs s := by
  induction cs generalizing s with
  | nil => rfl
  | cons c cs ih =>
    show countLog a (runTrace cs (applyCmd c s)) = countLog a s +
      ((match exec c s with
        | Except.ok _ => if cmdAction c = a then 1 else 0
        | Except.error _ => 0) + succCount a cs (applyCmd c s))
    rw [ih (applyCmd c s)]
    cases hx : exec c s with
    | ok s' =>
      rw [countLog_applyCmd_ok a c s s' hx, Nat.add_assoc]
    | error er =>
      rw [exec_error_applyCmd c s er hx, Nat.zero_add]

/-! ### Claim theorems -/

/-- C1: In every reachable state at most one Booking exists per
(amenity, date, time_slot) key; a valid RequestBooking whose key already has a
Booking fails with SlotTaken and leaves the state unchanged; and when the
first of two requests for the same key has succeeded, the second fails with
SlotTaken, so exactly one of them succeeds. -/
theorem C1_no_double_booking (s : EngineState) (hr : Reachable s)
    (amenity : String) (date : Nat) (slot flatId flatId2 : String)
    (today now now2 : Nat) (actor actor2 : String) :
    s.bookings.Pairwise BookingKeyNe ∧
    (¬ date < today → slot ∈ timeSlots →
      slotBooked s.bookings amenity date slot = true →
      requestBooking amenity date slot flatId today now actor s = Except.error Err.SlotTaken ∧
      applyCmd (Command.requestBooking amenity date slot flatId today now actor) s = s) ∧
    (∀ s', requestBooking amenity date slot flatId today now actor s = Except.ok s' →
      requestBooking amenity date slot flatId2 today now2 actor2 s' =
        Except.error Err.SlotTaken) := by
  refine ⟨(Reachable_Inv s hr).booking_keys, ?_, ?_⟩
  · intro h1 h2 h3
    have he := requestBooking_taken amenity date slot flatId today now actor s h1 h2 h3
    exact ⟨he, by simp only [applyCmd, exec, he]⟩
  · intro s' hs'
    obtain ⟨h1, h2, h3, rfl⟩ :=
      requestBooking_ok_inv amenity date slot flatId today now actor s s' hs'
    refine requestBooking_taken amenity date slot flatId2 today now2 actor2 _ h1 h2 ?_
    simp [slotBooked]

theorem C1_witness :
    requestBooking "Gym" 5 "06:00 AM - 08:00 AM" "F2" 3 8 "r2"
      (applyCmd (Command.requestBooking "Gym" 5 "06:00 AM - 08:00 AM" "F1" 3 7 "r1")
        (initState ["F1"])) = Except.error Err.SlotTaken :=
  (C1_no_double_booking (initState ["F1"]) (Reachable.init ["F1"]) "Gym" 5
    "06:00 AM - 08:00 AM" "F1" "F2" 3 7 8 "r1" "r2").2.2
    (applyCmd (Command.requestBooking "Gym" 5 "06:00 AM - 08:00 AM" "F1" 3 7 "r1")
      (initState ["F1"])) rfl

/-- C2: In every reachable state at most one MaintenanceBill exists per
(flat, period) key, and generating bills twice for the same period, amount and
due date on the unchanged flat set yields the same bill set as generating
once: the second call creates no bill. -/
theorem C2_generate_bills_idempotent (s : EngineState) (hr : Reachable s)
    (m : String) (y amt due now now2 : Nat) (actor actor2 : String) :
    s.bills.Pairwise BillKeyNe ∧
    (generateBills m y amt due now2 actor2 (generateBills m y amt due now actor s)).bills =
      (generateBills m y amt due now actor s).bills :=
  ⟨(Reachable_Inv s hr).bill_keys,
    generateBills_idempotent m y amt due now now2 actor actor2 s⟩

theorem C2_witness :
    (generateBills "March" 2026 1500 10 2 "admin"
      (generateBills "March" 2026 1500 10 1 "admin" (initState ["F1", "F2"]))).bills =
      (generateBills "March" 2026 1500 10 1 "admin" (initState ["F1", "F2"])).bills :=
  (C2_generate_bills_idempotent (initState ["F1", "F2"]) (Reachable.init ["F1", "F2"])
    "March" 2026 1500 10 1 2 "admin" "admin").2

/-- C3: RecordPayment fails with NotFound when the bill does not exist, fails
with AlreadyPaid when the bill is already Paid, and otherwise in one step
creates the Payment and flips the bill to Paid; after a success, a second call
for the same bill fails with AlreadyPaid and leaves the state unchanged, so a
payment succeeds at most once per bill. -/
theorem C3_record_payment (s : EngineState) (billId : Nat) (mode ref : String)
    (now : Nat) (actor : String) (mode2 ref2 : String) (now2 : Nat) (actor2 : String) :
    (s.bills.find? (fun b => b.id == billId) = none →
      recordPayment billId mode ref now actor s = Except.error Err.NotFound) ∧
    (∀ b, s.bills.find? (fun b => b.id == billId) = some b →
      b.status = BillStatus.Paid →
      recordPayment billId mode ref now actor s = Except.error Err.AlreadyPaid) ∧
    (∀ b, s.bills.find? (fun b => b.id == billId) = some b →
      b.status = BillStatus.Unpaid →
      ∃ s', recordPayment billId mode ref now actor s = Except.ok s' ∧
        s'.payments = ⟨s.nextId, billId, mode, ref, now⟩ :: s.payments ∧
        (∀ b' ∈ s'.bills, b'.id = billId → b'.status = BillStatus.Paid) ∧
        (∀ b' ∈ s.bills, b'.id ≠ billId → b' ∈ s'.bills)) ∧
    (∀ s', recordPayment billId mode ref now actor s = Except.ok s' →
      recordPayment billId mode2 ref2 now2 actor2 s' = Except.error Err.AlreadyPaid ∧
      applyCmd (Command.recordPayment billId mode2 ref2 now2 actor2) s' = s') := by
  have hpf : ∀ b : Bill,
      ((if b.id == billId then { b with status := BillStatus.Paid } else b).id == billId)
        = (b.id == billId) := by
    intro b; split <;> rfl
  refine ⟨recordPayment_notFound billId mode ref now actor s, ?_, ?_, ?_⟩
  · intro b hf hp
    exact recordPayment_alreadyPaid billId mode ref now actor s b hf hp
  · intro b hf hst
    have hp : ¬ b.status = BillStatus.Paid := by
      rw [hst]; intro hc; exact BillStatus.noConfusion hc
    refine ⟨_, recordPayment_ok billId mode ref now actor s b hf hp, rfl, ?_, ?_⟩
    · intro b' hb' hbid
      obtain ⟨a, ha, rfl⟩ := List.mem_map.mp hb'
      by_cases hc : (a.id == billId) = true
      · rw [if_pos hc]
      · rw [if_neg hc] at hbid
        exact absurd (beq_iff_eq.mpr hbid) hc
    · intro b' hb' hbid
      have hupd : (if b'.id == billId then { b' with status := BillStatus.Paid } else b')
          = b' := if_neg (fun hc => hbid (beq_iff_eq.mp hc))
      rw [← hupd]
      exact List.mem_map_of_mem _ hb'
  · intro s' hs'
    obtain ⟨b0, hf, hp0, rfl⟩ := recordPayment_ok_inv billId mode ref now actor s s' hs'
    have hb0 : (b0.id == billId) = true := by simpa using List.find?_some hf
    have hfind2 : (s.bills.map (fun b2 =>
        if b2.id == billId then { b2 with status := BillStatus.Paid } else b2)).find?
        (fun b => b.id == billId) = some { b0 with status := BillStatus.Paid } := by
      rw [find?_map_same _ _ _ hpf, hf]
      show some (if b0.id == billId then { b0 with status := BillStatus.Paid } else b0) = _
      rw [if_pos hb0]
    have he := recordPayment_alreadyPaid billId mode2 ref2 now2 actor2
      { s with
        bills := s.bills.map (fun b2 =>
          if b2.id == billId then { b2 with status := BillStatus.Paid } else b2)
        payments := ⟨s.nextId, billId, mode, ref, now⟩ :: s.payments
        nextId := s.nextId + 1
        log := ⟨actor, ActionKind.RecordPaymentK, "recorded maintenance payment", now⟩
          :: s.log }
      { b0 with status := BillStatus.Paid } hfind2 rfl
    exact ⟨he, by simp only [applyCmd, exec, he]⟩

theorem C3_witness :
    recordPayment 0 "CASH" "TXN2" 6 "a2"
      (applyCmd (Command.recordPayment 0 "ONLINE" "TXN1" 5 "a1")
        (applyCmd (Command.generateBills "March" 2026 1500 10 1 "admin") (initState ["F1"])))
      = Except.error Err.AlreadyPaid :=
  ((C3_record_payment
      (applyCmd (Command.generateBills "March" 2026 1500 10 1 "admin") (initState ["F1"]))
      0 "ONLINE" "TXN1" 5 "a1" "CASH" "TXN2" 6 "a2").2.2.2
    (applyCmd (Command.recordPayment 0 "ONLINE" "TXN1" 5 "a1")
      (applyCmd (Command.generateBills "March" 2026 1500 10 1 "admin") (initState ["F1"])))
    rfl).1

/-- C4: In every reachable state a Payment record exists for a bill iff that
bill's status is Paid, and attempting to create a Payment for an already-Paid
bill fails. -/
theorem C4_payment_iff_paid (s : EngineState) (hr : Reachable s) (billId : Nat)
    (mode ref : String) (now : Nat) (actor : String) (b : Bill) :
    (∀ b' ∈ s.bills,
      ((∃ p ∈ s.payments, p.bill_id = b'.id) ↔ b'.status = BillStatus.Paid)) ∧
    (s.bills.find? (fun b => b.id == billId) = some b → b.status = BillStatus.Paid →
      recordPayment billId mode ref now actor s = Except.error Err.AlreadyPaid) :=
  ⟨(Reachable_Inv s hr).pay_iff_paid,
   fun hf hp => recordPayment_alreadyPaid billId mode ref now actor s b hf hp⟩

theorem C4_witness :
    recordPayment 0 "CASH" "TXN3" 7 "a3"
      (applyCmd (Command.recordPayment 0 "ONLINE" "TXN1" 5 "a1")
        (applyCmd (Command.generateBills "March" 2026 1500 10 1 "admin") (initState ["F1"])))
      = Except.error Err.AlreadyPaid :=
  (C4_payment_iff_paid
    (applyCmd (Command.recordPayment 0 "ONLINE" "TXN1" 5 "a1")
      (applyCmd (Command.generateBills "March" 2026 1500 10 1 "admin") (initState ["F1"])))
    (Reachable.step _ _ (Reachable.step _ _ (Reachable.init ["F1"])))
    0 "CASH" "TXN3" 7 "a3"
    ⟨0, "F1", 1500, "March", 2026, 10, BillStatus.Paid⟩).2 rfl rfl

/-- C5: Every successful command appends exactly one activity-log entry whose
action is the command's operation kind, a failed command changes nothing, and
over any command trace from a start state the number of log entries per
operation kind equals the number of successful commands of that kind. -/
theorem C5_log_completeness :
    (∀ (c : Command) (s s' : EngineState), exec c s = Except.ok s' →
      ∃ e : LogEntry, e.action = cmdAction c ∧ s'.log = e :: s.log) ∧
    (∀ (c : Command) (s : EngineState) (e : Err), exec c s = Except.error e →
      applyCmd c s = s) ∧
    (∀ (flats : List String) (cs : List Command) (a : ActionKind),
      countLog a (runTrace cs (initState flats)) = succCount a cs (initState flats)) := by
  refine ⟨exec_ok_log, exec_error_applyCmd, ?_⟩
  intro flats cs a
  rw [countLog_runTrace]
  have h0 : countLog a (initState flats) = 0 := rfl
  rw [h0, Nat.zero_add]

theorem C5_witness :
    countLog ActionKind.CheckInK
      (runTrace [Command.checkIn "Rahul Sharma" "A" "A-101" 3 "guard"]
        (initState ["A-101"])) =
      succCount ActionKind.CheckInK [Command.checkIn "Rahul Sharma" "A" "A-101" 3 "guard"]
        (initState ["A-101"]) :=
  C5_log_completeness.2.2 ["A-101"] [Command.checkIn "Rahul Sharma" "A" "A-101" 3 "guard"]
    ActionKind.CheckInK

/-- C6: CheckOut fails with NotFound when the session does not exist, fails
with AlreadyOut when the session is already Out, and otherwise sets status Out
and exit timestamp to now; a second CheckOut after a success fails with
AlreadyOut, and once a session's exit timestamp is set no later command
changes the session record. -/
theorem C6_checkout (s : EngineState) (hr : Reachable s) (sessionId now : Nat)
    (actor : String) (now2 : Nat) (actor2 : String) :
    (s.visitors.find? (fun v => v.id == sessionId) = none →
      checkOut sessionId now actor s = Except.error Err.NotFound) ∧
    (∀ v, s.visitors.find? (fun v => v.id == sessionId) = some v →
      v.status = VisitorStatus.Out →
      checkOut sessionId now actor s = Except.error Err.AlreadyOut) ∧
    (∀ v, s.visitors.find? (fun v => v.id == sessionId) = some v →
      v.status = VisitorStatus.In →
      ∃ s', checkOut sessionId now actor s = Except.ok s' ∧
        { v with status := VisitorStatus.Out, exit_time := some now } ∈ s'.visitors) ∧
    (∀ s', checkOut sessionId now actor s = Except.ok s' →
      checkOut sessionId now2 actor2 s' = Except.error Err.AlreadyOut) ∧
    (∀ v ∈ s.visitors, ∀ t : Nat, v.exit_time = some t → ∀ c : Command,
      v ∈ (applyCmd c s).visitors) := by
  have hpf : ∀ v : Visitor,
      ((if v.id == sessionId then
        { v with status := VisitorStatus.Out, exit_time := some now } else v).id == sessionId)
        = (v.id == sessionId) := by
    intro v; split <;> rfl
  refine ⟨checkOut_notFound sessionId now actor s, ?_, ?_, ?_, ?_⟩
  · intro v hf ho
    exact checkOut_alreadyOut sessionId now actor s v hf ho
  · intro v hf hin
    have ho : ¬ v.status = VisitorStatus.Out := by
      rw [hin]; intro hc; exact VisitorStatus.noConfusion hc
    refine ⟨_, checkOut_ok sessionId now actor s v hf ho, ?_⟩
    have hc : (v.id == sessionId) = true := by simpa using List.find?_some hf
    have hupd : (if v.id == sessionId then
        { v with status := VisitorStatus.Out, exit_time := some now } else v)
        = { v with status := VisitorStatus.Out, exit_time := some now } := if_pos hc
    rw [← hupd]
    exact List.mem_map_of_mem _ (List.mem_of_find?_eq_some hf)
  · intro s' hs'
    obtain ⟨v0, hf, ho0, rfl⟩ := checkOut_ok_inv sessionId now actor s s' hs'
    have hc : (v0.id == sessionId) = true := by simpa using List.find?_some hf
    have hfind2 : (s.visitors.map (fun v2 =>
        if v2.id == sessionId then
          { v2 with status := VisitorStatus.Out, exit_time := some now } else v2)).find?
        (fun v => v.id == sessionId)
        = some { v0 with status := VisitorStatus.Out, exit_time := some now } := by
      rw [find?_map_same _ _ _ hpf, hf]
      show some (if v0.id == sessionId then
        { v0 with status := VisitorStatus.Out, exit_time := some now } else v0) = _
      rw [if_pos hc]
    exact checkOut_alreadyOut sessionId now2 actor2
      { s with
        visitors := s.visitors.map (fun v2 =>
          if v2.id == sessionId then
            { v2 with status := VisitorStatus.Out, exit_time := some now }
          else v2)
        log := ⟨actor, ActionKind.CheckOutK, "recorded visitor exit", now⟩ :: s.log }
      { v0 with status := VisitorStatus.Out, exit_time := some now } hfind2 rfl
  · intro v hv t ht c
    have hInv := Reachable_Inv s hr
    have ho : v.status = VisitorStatus.Out :=
      (hInv.visitor_out_iff v hv).mpr (by rw [ht]; exact Option.some_ne_none t)
    exact out_visitor_preserved s hInv v hv ho c

theorem C6_witness :
    checkOut 0 9 "g2"
      (applyCmd (Command.checkOut 0 5 "g1")
        (applyCmd (Command.checkIn "Rahul Sharma" "A" "A-101" 3 "guard")
          (initState ["A-101"]))) = Except.error Err.AlreadyOut :=
  (C6_checkout
    (applyCmd (Command.checkIn "Rahul Sharma" "A" "A-101" 3 "guard") (initState ["A-101"]))
    (Reachable.step _ _ (Reachable.init ["A-101"])) 0 5 "g1" 9 "g2").2.2.2.1
    (applyCmd (Command.checkOut 0 5 "g1")
      (applyCmd (Command.checkIn "Rahul Sharma" "A" "A-101" 3 "guard")
        (initState ["A-101"]))) rfl

/-- C7: In every reachable state a Visitor Session's status is Out iff its
exit timestamp is set, and an Out session record is never changed by any
further command, so a session moves from In to Out at most once and never
back. -/
theorem C7_session_out_iff (s : EngineState) (hr : Reachable s) :
    (∀ v ∈ s.visitors, (v.status = VisitorStatus.Out ↔ v.exit_time ≠ none)) ∧
    (∀ v ∈ s.visitors, v.status = VisitorStatus.Out → ∀ c : Command,
      v ∈ (applyCmd c s).visitors) :=
  ⟨(Reachable_Inv s hr).visitor_out_iff,
   fun v hv ho c => out_visitor_preserved s (Reachable_Inv s hr) v hv ho c⟩

theorem C7_witness :
    (⟨0, "Rahul Sharma", "A", "A-101", 3, some 5, VisitorStatus.Out⟩ : Visitor) ∈
      (applyCmd (Command.checkOut 0 9 "g2")
        (applyCmd (Command.checkOut 0 5 "g1")
          (applyCmd (Command.checkIn "Rahul Sharma" "A" "A-101" 3 "guard")
            (initState ["A-101"])))).visitors :=
  (C7_session_out_iff
    (applyCmd (Command.checkOut 0 5 "g1")
      (applyCmd (Command.checkIn "Rahul Sharma" "A" "A-101" 3 "guard")
        (initState ["A-101"])))
    (Reachable.step _ _ (Reachable.step _ _ (Reachable.init ["A-101"])))).2
    ⟨0, "Rahul Sharma", "A", "A-101", 3, some 5, VisitorStatus.Out⟩ (by decide) rfl
    (Command.checkOut 0 9 "g2")

/-- C8: AdvanceComplaint fails with NotFound when the complaint is absent,
fails with InvalidTransition whenever the new status does not strictly follow
the current one in the order Pending, InProgress, Resolved, always fails on a
Resolved complaint, only succeeds by strictly advancing the found complaint's
status, and the forward skip from Pending directly to Resolved succeeds. -/
theorem C8_complaint_forward (s : EngineState) (complaintId : Nat)
    (newStatus : ComplaintStatus) (now : Nat) (actor : String) :
    (s.complaints.find? (fun c => c.id == complaintId) = none →
      advanceComplaint complaintId newStatus now actor s = Except.error Err.NotFound) ∧
    (∀ c0, s.complaints.find? (fun c => c.id == complaintId) = some c0 →
      ¬ cRank c0.status < cRank newStatus →
      advanceComplaint complaintId newStatus now actor s =
        Except.error Err.InvalidTransition) ∧
    (∀ c0, s.complaints.find? (fun c => c.id == complaintId) = some c0 →
      c0.status = ComplaintStatus.Resolved →
      advanceComplaint complaintId newStatus now actor s =
        Except.error Err.InvalidTransition) ∧
    (∀ c0 s', s.complaints.find? (fun c => c.id == complaintId) = some c0 →
      advanceComplaint complaintId newStatus now actor s = Except.ok s' →
      cRank c0.status < cRank newStatus) ∧
    (∀ c0, s.complaints.find? (fun c => c.id == complaintId) = some c0 →
      c0.status = ComplaintStatus.Pending → newStatus = ComplaintStatus.Resolved →
      ∃ s', advanceComplaint complaintId newStatus now actor s = Except.ok s') := by
  refine ⟨advanceComplaint_notFound complaintId newStatus now actor s, ?_, ?_, ?_, ?_⟩
  · intro c0 hf hrk
    exact advanceComplaint_invalid complaintId newStatus now actor s c0 hf hrk
  · intro c0 hf hres
    refine advanceComplaint_invalid complaintId newStatus now actor s c0 hf ?_
    rw [hres]
    cases newStatus <;> decide
  · intro c0 s' hf hok
    obtain ⟨c1, hf1, hr1, _⟩ := advanceComplaint_ok_inv complaintId newStatus now actor s s' hok
    rw [hf] at hf1
    injection hf1 with hf1
    rw [hf1]
    exact hr1
  · intro c0 hf hp hns
    refine ⟨_, advanceComplaint_ok complaintId newStatus now actor s c0 hf ?_⟩
    rw [hp, hns]
    decide

theorem C8_witness :
    advanceComplaint 0 ComplaintStatus.Pending 9 "adm"
      (applyCmd (Command.advanceComplaint 0 ComplaintStatus.Resolved 5 "adm")
        (applyCmd (Command.raiseComplaint "F1" "Leak" "kitchen pipe" "Water" 4 "r1")
          (initState ["F1"]))) = Except.error Err.InvalidTransition :=
  (C8_complaint_forward
    (applyCmd (Command.advanceComplaint 0 ComplaintStatus.Resolved 5 "adm")
      (applyCmd (Command.raiseComplaint "F1" "Leak" "kitchen pipe" "Water" 4 "r1")
        (initState ["F1"])))
    0 ComplaintStatus.Pending 9 "adm").2.2.1
    ⟨0, "F1", "Leak", "kitchen pipe", "Water", ComplaintStatus.Resolved, 4⟩ rfl rfl

/-- C9: RequestBooking rejects a past date with PastDate and a slot outside
the fixed enumerated set with InvalidSlot, in both cases with no state change;
a successful request implies the date is not past and the slot is enumerated;
and every Booking in a reachable state carries an enumerated slot. -/
theorem C9_booking_validation (s : EngineState) (hr : Reachable s) (amenity : String)
    (date : Nat) (slot flatId : String) (today now : Nat) (actor : String) :
    (date < today →
      requestBooking amenity date slot flatId today now actor s =
        Except.error Err.PastDate ∧
      applyCmd (Command.requestBooking amenity date slot flatId today now actor) s = s) ∧
    (¬ date < today → ¬ slot ∈ timeSlots →
      requestBooking amenity date slot flatId today now actor s =
        Except.error Err.InvalidSlot ∧
      applyCmd (Command.requestBooking amenity date slot flatId today now actor) s = s) ∧
    (∀ s', requestBooking amenity date slot flatId today now actor s = Except.ok s' →
      today ≤ date ∧ slot ∈ timeSlots) ∧
    (∀ b ∈ s.bookings, b.time_slot ∈ timeSlots) := by
  refine ⟨?_, ?_, ?_, (Reachable_Inv s hr).booking_slots⟩
  · intro h1
    have he := requestBooking_past amenity date slot flatId today now actor s h1
    exact ⟨he, by simp only [applyCmd, exec, he]⟩
  · intro h1 h2
    have he := requestBooking_invalidSlot amenity date slot flatId today now actor s h1 h2
    exact ⟨he, by simp only [applyCmd, exec, he]⟩
  · intro s' hs'
    obtain ⟨h1, h2, -, -⟩ :=
      requestBooking_ok_inv amenity date slot flatId today now actor s s' hs'
    exact ⟨Nat.not_lt.mp h1, h2⟩

theorem C9_witness :
    requestBooking "Gym" 2 "06:00 AM - 08:00 AM" "F1" 5 7 "r1" (initState ["F1"]) =
      Except.error Err.PastDate :=
  ((C9_booking_validation (initState ["F1"]) (Reachable.init ["F1"]) "Gym" 2
    "06:00 AM - 08:00 AM" "F1" 5 7 "r1").1 (by decide)).1

/-- C10: For every tower label the registration form offers exactly the seed
script's 28 per-tower flat labels (floors 1..7, units 1..4, label
floor0unit), each prefixed with the tower label and a dash. -/
theorem C10_ui_flats_match_seed (tower : String) :
    uiAvailableFlats tower = seedFlatLabels.map (fun l => tower ++ ("-" ++ l)) ∧
    (uiAvailableFlats tower).length = 28 := by
  constructor
  · rfl
  · rfl

end TowerTech
